import Mathlib

/-!
# Verification of the PPTAgent catalog ETL scripts

Shallow embedding of the normalization / merge / upload logic of the
PPTAgent repository (Python), together with proofs about the embedded
functions.  Python dictionaries carrying JSON-like data are modelled as
association lists over `PyVal`; `None`/`NaN` cells are modelled by
`Option`; functions that may raise return `Option`/`Except`.
-/

/-- A JSON-like Python value as passed around by the ETL scripts. -/
inductive PyVal where
  | none : PyVal
  | bool (b : Bool) : PyVal
  | int (n : Int) : PyVal
  | str (s : String) : PyVal
  | list (xs : List PyVal) : PyVal
  | dict (entries : List (String × PyVal)) : PyVal
deriving Repr

/-- Python truthiness (`bool(v)`): `None`, `False`, `0`, `""`, `[]`, `{}`
are falsy; everything else is truthy. -/
def truthy : PyVal → Bool
  | .none => false
  | .bool b => b
  | .int n => n != 0
  | .str s => s != ""
  | .list xs => !xs.isEmpty
  | .dict d => !d.isEmpty

/-- A Python dict, modelled as an association list in insertion order. -/
abbrev PyDict := List (String × PyVal)

/-- `d.get(k)`: value stored under `k`, `None` when absent. -/
def pyGet (d : PyDict) (k : String) : PyVal :=
  match d with
  | [] => .none
  | e :: rest => if e.1 = k then e.2 else pyGet rest k

/-- `d[k] = v`: replace the value under an existing key in place,
append a new entry otherwise (CPython dict-assignment order; keys of a
Python dict are unique, so replacing the first occurrence is exact). -/
def pySet (d : PyDict) (k : String) (v : PyVal) : PyDict :=
  match d with
  | [] => [(k, v)]
  | e :: rest => if e.1 = k then (k, v) :: rest else e :: pySet rest k v

theorem pyGet_pySet_same (d : PyDict) (k : String) (v : PyVal) :
    pyGet (pySet d k v) k = v := by
  induction d with
  | nil => simp [pyGet, pySet]
  | cons e rest ih =>
    by_cases he : e.1 = k
    · simp [pyGet, pySet, he]
    · simp [pyGet, pySet, he, ih]

theorem pyGet_pySet_ne (d : PyDict) (k k' : String) (v : PyVal)
    (h : k' ≠ k) : pyGet (pySet d k v) k' = pyGet d k' := by
  have hk : k ≠ k' := fun hkk => h hkk.symm
  induction d with
  | nil => simp [pyGet, pySet, hk]
  | cons e rest ih =>
    by_cases he : e.1 = k
    · simp [pyGet, pySet, he, hk]
    · by_cases he' : e.1 = k'
      · simp [pyGet, pySet, he, he', h]
      · simp [pyGet, pySet, he, he', ih]

/-- The five mergeable fields of `merge_slide_data`
(src/core/slides_to_json_merger.py, lines 43-44). -/
def fields_to_merge : List String :=
  ["standard", "description", "tableInMd", "PackagingInformation", "images"]

/-- The slide payload produced by `process_slide_two_steps`: a dict whose
`"data"` entry holds the extracted product record. -/
structure SlidePayload where
  data : PyDict

/-- Body of the merge loop of `merge_slide_data`: copy the slide value
over the accumulated record only if the Excel value is empty/falsy and
the slide value is truthy. -/
def mergeField (slide_data excel_product : PyDict) (merged : PyDict)
    (field : String) : PyDict :=
  let excel_value := pyGet excel_product field
  let slide_value := pyGet slide_data field
  if !truthy excel_value && truthy slide_value then
    pySet merged field slide_value
  else merged

/-- `merge_slide_data` (src/core/slides_to_json_merger.py, lines 40-57):
start from a copy of the Excel product and run the merge loop over the
five mergeable fields. -/
def merge_slide_data (slide_payload : SlidePayload)
    (excel_product : PyDict) : PyDict :=
  fields_to_merge.foldl (mergeField slide_payload.data excel_product)
    excel_product

theorem pyGet_mergeField_ne (sd ep acc : PyDict) (f g : String)
    (h : g ≠ f) : pyGet (mergeField sd ep acc f) g = pyGet acc g := by
  dsimp only [mergeField]
  split
  · exact pyGet_pySet_ne acc f g _ h
  · rfl

theorem pyGet_mergeField_same (sd ep acc : PyDict) (f : String) :
    pyGet (mergeField sd ep acc f) f =
      if (!truthy (pyGet ep f) && truthy (pyGet sd f)) = true then
        pyGet sd f
      else pyGet acc f := by
  dsimp only [mergeField]
  split
  · exact pyGet_pySet_same acc f _
  · rfl

theorem pyGet_merge_field (sp : SlidePayload) (ep : PyDict) (f : String)
    (hf : f ∈ fields_to_merge) :
    pyGet (merge_slide_data sp ep) f =
      if (!truthy (pyGet ep f) && truthy (pyGet sp.data f)) = true then
        pyGet sp.data f
      else pyGet ep f := by
  simp only [fields_to_merge, List.mem_cons, List.not_mem_nil, or_false] at hf
  simp only [merge_slide_data, fields_to_merge, List.foldl_cons, List.foldl_nil]
  rcases hf with rfl | rfl | rfl | rfl | rfl
  · rw [pyGet_mergeField_ne _ _ _ _ _ (by decide),
      pyGet_mergeField_ne _ _ _ _ _ (by decide),
      pyGet_mergeField_ne _ _ _ _ _ (by decide),
      pyGet_mergeField_ne _ _ _ _ _ (by decide), pyGet_mergeField_same]
  · rw [pyGet_mergeField_ne _ _ _ _ _ (by decide),
      pyGet_mergeField_ne _ _ _ _ _ (by decide),
      pyGet_mergeField_ne _ _ _ _ _ (by decide), pyGet_mergeField_same,
      pyGet_mergeField_ne _ _ _ _ _ (by decide)]
  · rw [pyGet_mergeField_ne _ _ _ _ _ (by decide),
      pyGet_mergeField_ne _ _ _ _ _ (by decide), pyGet_mergeField_same,
      pyGet_mergeField_ne _ _ _ _ _ (by decide),
      pyGet_mergeField_ne _ _ _ _ _ (by decide)]
  · rw [pyGet_mergeField_ne _ _ _ _ _ (by decide), pyGet_mergeField_same,
      pyGet_mergeField_ne _ _ _ _ _ (by decide),
      pyGet_mergeField_ne _ _ _ _ _ (by decide),
      pyGet_mergeField_ne _ _ _ _ _ (by decide)]
  · rw [pyGet_mergeField_same,
      pyGet_mergeField_ne _ _ _ _ _ (by decide),
      pyGet_mergeField_ne _ _ _ _ _ (by decide),
      pyGet_mergeField_ne _ _ _ _ _ (by decide),
      pyGet_mergeField_ne _ _ _ _ _ (by decide)]

/-- The default `PackagingInformation` object created by the spreadsheet
readers (`DEFAULT_PARENT` in src/excel_to_products.py, lines 33-39): all
numeric sub-fields zero, notes equal to the "Not specified" sentinel. -/
def defaultPackagingInformation : PyVal :=
  .dict [("packing_per_inner_box", .int 0),
         ("inner_boxes_per_carton", .int 0),
         ("loading_capacity_20GP", .int 0),
         ("loading_capacity_40HC", .int 0),
         ("additional_notes", .str "Not specified")]

/-- Excel product used in the C1 counterexample: its packaging record is
the all-zero / "Not specified" default. -/
def C1_excel : PyDict :=
  [("referenceString", .str "4.1.1"),
   ("PackagingInformation", defaultPackagingInformation)]

/-- Slide payload used in the C1 counterexample: a fully populated
packaging record extracted from the deck. -/
def C1_slide : SlidePayload :=
  ⟨[("referenceString", .str "4.1.1"),
    ("PackagingInformation",
      .dict [("packing_per_inner_box", .int 12),
             ("inner_boxes_per_carton", .int 4),
             ("loading_capacity_20GP", .int 1000),
             ("loading_capacity_40HC", .int 2400),
             ("additional_notes", .str "Box of 12")])]⟩

/-- C1 counterexample: an existing packaging record whose numeric
sub-fields are all zero and whose notes equal "Not specified" is NOT
treated as empty by `merge_slide_data` — the Python truthiness test
`not excel_value` sees a non-empty dict, so the slide-extracted
packaging object does not replace it, contrary to the claim. -/
theorem C1_packaging_counterexample :
    pyGet (merge_slide_data C1_slide C1_excel) "PackagingInformation" =
      defaultPackagingInformation ∧
    pyGet C1_slide.data "PackagingInformation" ≠
      defaultPackagingInformation := by
  refine ⟨rfl, ?_⟩
  intro h
  simp only [C1_slide, pyGet, defaultPackagingInformation] at h
  simp at h

/-- C1 (amended): in the product merge, the existing `PackagingInformation`
object is treated as empty (and replaced wholesale by the slide-extracted
object) exactly when it is Python-falsy — absent, `None`, or an empty
object; in particular the all-zero / "Not specified" default record is
truthy, counts as present, and blocks the slide-sourced overwrite (no
field-level sub-merging).  The zero/sentinel test of the original claim
exists only in `check_completeness`, not in the merge. -/
theorem C1_packaging_merge_amended :
    (∀ (sp : SlidePayload) (ep : PyDict),
      pyGet (merge_slide_data sp ep) "PackagingInformation" =
        if (!truthy (pyGet ep "PackagingInformation") &&
            truthy (pyGet sp.data "PackagingInformation")) = true then
          pyGet sp.data "PackagingInformation"
        else pyGet ep "PackagingInformation") ∧
    truthy defaultPackagingInformation = true :=
  ⟨fun sp ep => pyGet_merge_field sp ep _ (by decide), rfl⟩

/-- Excel products and slide payloads for the C5 merge-precedence
examples from the spec. -/
def C5_excel_filled : PyDict := [("description", .str "Existing")]

def C5_excel_empty : PyDict := [("description", .str "")]

def C5_slide : SlidePayload := ⟨[("description", .str "New")]⟩

/-- C5: for each of the five mergeable fields, the merge copies the slide
value over the existing value only if the existing value is falsy and the
slide value is truthy; the existing value always wins when both are
present.  Merging description "Existing" with slide "New" keeps
"Existing"; merging description "" with slide "New" yields "New". -/
theorem C5_merge_precedence :
    (∀ (sp : SlidePayload) (ep : PyDict) (f : String), f ∈ fields_to_merge →
      pyGet (merge_slide_data sp ep) f =
        if (!truthy (pyGet ep f) && truthy (pyGet sp.data f)) = true then
          pyGet sp.data f
        else pyGet ep f) ∧
    pyGet (merge_slide_data C5_slide C5_excel_filled) "description" =
      .str "Existing" ∧
    pyGet (merge_slide_data C5_slide C5_excel_empty) "description" =
      .str "New" :=
  ⟨fun sp ep f hf => pyGet_merge_field sp ep f hf, rfl, rfl⟩

theorem C5_merge_precedence_witness :
    ("description" ∈ fields_to_merge) ∧
    pyGet (merge_slide_data C5_slide C5_excel_filled) "description" =
      (if (!truthy (pyGet C5_excel_filled "description") &&
           truthy (pyGet C5_slide.data "description")) = true then
         pyGet C5_slide.data "description"
       else pyGet C5_excel_filled "description") :=
  ⟨by decide,
   C5_merge_precedence.1 C5_slide C5_excel_filled "description" (by decide)⟩

/-- C9: `merge_slide_data` modifies at most the five mergeable fields —
for every other key, the merged record's value equals the Excel
product's value.  (Non-mutation of the inputs is inherent in the
embedding: the source copies the Excel dict before assigning.) -/
theorem C9_merge_frame (sp : SlidePayload) (ep : PyDict) (k : String)
    (hk : k ∉ fields_to_merge) :
    pyGet (merge_slide_data sp ep) k = pyGet ep k := by
  simp only [fields_to_merge, List.mem_cons, List.not_mem_nil, or_false,
    not_or] at hk
  obtain ⟨h1, h2, h3, h4, h5⟩ := hk
  simp only [merge_slide_data, fields_to_merge, List.foldl_cons,
    List.foldl_nil]
  rw [pyGet_mergeField_ne _ _ _ _ _ h5, pyGet_mergeField_ne _ _ _ _ _ h4,
    pyGet_mergeField_ne _ _ _ _ _ h3, pyGet_mergeField_ne _ _ _ _ _ h2,
    pyGet_mergeField_ne _ _ _ _ _ h1]

theorem C9_merge_frame_witness :
    ("name" ∉ fields_to_merge) ∧
    pyGet (merge_slide_data ⟨[("name", .str "Slide Name")]⟩
        [("name", .str "Excel Name")]) "name" =
      pyGet [("name", .str "Excel Name")] "name" :=
  ⟨by decide, C9_merge_frame ⟨[("name", .str "Slide Name")]⟩
    [("name", .str "Excel Name")] "name" (by decide)⟩

/-- Python `str.strip()`: drop whitespace from both ends. -/
def pyStrip (cs : List Char) : List Char :=
  ((cs.dropWhile Char.isWhitespace).reverse.dropWhile Char.isWhitespace).reverse

/-- Python `str.lower()` (ASCII range, as used by these scripts). -/
def pyLower (cs : List Char) : List Char := cs.map Char.toLower

/-- The placeholder vocabulary `{"", "n/a", "na", "-"}` of `parse_int`
(src/excel_to_products.py, line 64). -/
def pySentinels : List (List Char) := [[], "n/a".toList, "na".toList, "-".toList]

/-- `s.replace("'","").replace(",","").replace(" ","")`
(src/excel_to_products.py, line 65): each replacement deletes every
occurrence of a single character. -/
def cleanSeparators (cs : List Char) : List Char :=
  cs.filter (fun c => !(c == '\'' || c == ',' || c == ' '))

/-- Value of a list of ASCII decimal digits. -/
def digitsToNat (ds : List Char) : Nat :=
  ds.foldl (fun a c => 10 * a + (c.toNat - 48)) 0

/-- Accumulating scanner behind `digitRuns`: `run` holds the digits of
the current (reversed) run. -/
def digitRunsAux : List Char → List Char → List (List Char)
  | [], run => if run.isEmpty then [] else [run.reverse]
  | c :: rest, run =>
    if c.isDigit then digitRunsAux rest (c :: run)
    else if run.isEmpty then digitRunsAux rest []
    else run.reverse :: digitRunsAux rest []

/-- `re.findall(r"[0-9]+", s)`: the maximal runs of ASCII digits of `s`,
in order (src/excel_to_products.py, line 60). -/
def digitRuns (cs : List Char) : List (List Char) := digitRunsAux cs []

theorem digitRunsAux_flatten (cs run : List Char) :
    (digitRunsAux cs run).flatten = run.reverse ++ cs.filter Char.isDigit := by
  induction cs generalizing run with
  | nil =>
    by_cases h : run.isEmpty
    · simp_all [digitRunsAux, List.isEmpty_iff.mp h]
    · simp_all [digitRunsAux]
  | cons c rest ih =>
    by_cases hc : c.isDigit
    · simp [digitRunsAux, hc, ih, List.filter_cons]
    · by_cases h : run.isEmpty
      · simp_all [digitRunsAux, List.isEmpty_iff.mp h, List.filter_cons]
      · simp_all [digitRunsAux, List.filter_cons]

/-- Joining all digit runs keeps exactly the digit characters, in order. -/
theorem digitRuns_flatten (cs : List Char) :
    (digitRuns cs).flatten = cs.filter Char.isDigit := by
  simpa using digitRunsAux_flatten cs []

/-- Tail of a PEP 515 digit group: digits with single underscores that
must sit between two digits. -/
def underscoredTail : List Char → Option (List Char)
  | [] => some []
  | '_' :: d :: rest =>
    if d.isDigit then (underscoredTail rest).map (fun ds => d :: ds)
    else Option.none
  | ['_'] => Option.none
  | c :: rest =>
    if c.isDigit then (underscoredTail rest).map (fun ds => c :: ds)
    else Option.none

/-- A non-empty PEP 515 digit group; returns the digits without
underscores. -/
def underscoredDigits? : List Char → Option (List Char)
  | [] => Option.none
  | c :: rest =>
    if c.isDigit then (underscoredTail rest).map (fun ds => c :: ds)
    else Option.none

/-- A possibly-empty digit group (integer or fractional part of a float
literal may be absent as long as the other is present). -/
def optionalDigits? (cs : List Char) : Option (List Char) :=
  if cs.isEmpty then some [] else underscoredDigits? cs

/-- Split a character list on a separator character. -/
def splitOnChar (sep : Char) : List Char → List (List Char)
  | [] => [[]]
  | c :: rest =>
    match splitOnChar sep rest with
    | [] => [[c]]
    | g :: gs => if c = sep then [] :: g :: gs else (c :: g) :: gs

/-- Mantissa of a float literal: digits with an optional decimal point;
returns the digit value and the number of fractional digits. -/
def parseMantissa? (cs : List Char) : Option (Nat × Nat) :=
  match splitOnChar '.' cs with
  | [whole] => (underscoredDigits? whole).map (fun ds => (digitsToNat ds, 0))
  | [whole, frac] =>
    match optionalDigits? whole, optionalDigits? frac with
    | some w, some f =>
      if w.isEmpty && f.isEmpty then Option.none
      else some (digitsToNat (w ++ f), f.length)
    | _, _ => Option.none
  | _ => Option.none

/-- Exponent of a float literal: optional sign and digit group. -/
def parseExponent? : List Char → Option Int
  | '+' :: rest => (underscoredDigits? rest).map (fun ds => (digitsToNat ds : Int))
  | '-' :: rest => (underscoredDigits? rest).map (fun ds => -(digitsToNat ds : Int))
  | cs => (underscoredDigits? cs).map (fun ds => (digitsToNat ds : Int))

/-- Truncation toward zero of `± M × 10^(E - scale)` — the value `int()`
returns for a finite decimal literal. -/
def truncDecimal (neg : Bool) (M : Nat) (scale : Nat) (E : Int) : Int :=
  let mag : Nat :=
    if (scale : Int) ≤ E then M * 10 ^ (E - scale).toNat
    else M / 10 ^ ((scale : Int) - E).toNat
  if neg then -(mag : Int) else (mag : Int)

/-- Model of Python `int(float(s))` on an already lowercased string with
separators removed: optional sign, decimal mantissa, optional exponent,
PEP 515 underscores; `inf`/`infinity`/`nan` make `int()` raise and are
modelled as failure.  Exact decimal semantics — IEEE rounding of values
outside float's exactly-representable integer range, and overflow of
huge literals to infinity, are not modelled (no input of the claims is
affected). -/
def pyIntFloat? (cs : List Char) : Option Int :=
  let signSplit : Bool × List Char :=
    match cs with
    | '+' :: r => (false, r)
    | '-' :: r => (true, r)
    | r => (false, r)
  let neg := signSplit.1
  let body := signSplit.2
  if body = "inf".toList ∨ body = "infinity".toList ∨ body = "nan".toList then
    Option.none
  else
    match splitOnChar 'e' body with
    | [m] => (parseMantissa? m).map (fun p => truncDecimal neg p.1 p.2 0)
    | [m, e] =>
      match parseMantissa? m, parseExponent? e with
      | some p, some E => some (truncDecimal neg p.1 p.2 E)
      | _, _ => Option.none
    | _ => Option.none

/-- `parse_int` (src/excel_to_products.py, lines 61-70 and
src/excel_to_products_enriched.py, lines 44-53).  The raw cell is
modelled post-`str(x)` as `Option String`, `Option.none` standing for a
missing/NaN cell (`pd.isna`).  Totality of this function models
"never raises". -/
def parse_int (x : Option String) : Option Int :=
  match x with
  | Option.none => Option.none
  | some raw =>
    let s := pyLower (pyStrip raw.toList)
    if s ∈ pySentinels then Option.none
    else
      let s2 := cleanSeparators s
      match pyIntFloat? s2 with
      | some n => some n
      | Option.none =>
        let digits := (digitRuns s2).flatten
        if digits.isEmpty then Option.none
        else some (Int.ofNat (digitsToNat digits))

/-- The claim's fallback rule, modelled from its own words: the integer
formed from the longest run of digits in the input (first-longest on
ties). -/
def longestDigitRun (cs : List Char) : List Char :=
  (digitRuns cs).foldl (fun best r => if best.length < r.length then r else best) []

/-- C2 counterexample: on `"12ab345"` numeric coercion fails and
`parse_int` concatenates ALL digit runs (`12345`), not the longest run
(`345`) stated by the claim. -/
theorem C2_longest_run_counterexample :
    parse_int (some "12ab345") = some 12345 ∧
    longestDigitRun "12ab345".toList = "345".toList ∧
    parse_int (some "12ab345") ≠
      some (Int.ofNat (digitsToNat (longestDigitRun "12ab345".toList))) := by
  refine ⟨by decide, by decide, by decide⟩

/-- C2 (amended): `parse_int` never raises (it is total); it strips
thousands separators, apostrophes and spaces and attempts numeric
coercion; when coercion fails it returns the integer formed by
concatenating, in order, ALL runs of digits of the cleaned input
(equivalently: by keeping every digit character); it returns `None` for
empty/missing/unparseable input.  The spec's examples hold:
`parse_int("1,200") == 1200`, `parse_int("12'500") == 12500`,
`parse_int("abc") is None`, `parse_int("") is None`. -/
theorem C2_parse_int_amended :
    parse_int (some "1,200") = some 1200 ∧
    parse_int (some "12'500") = some 12500 ∧
    parse_int (some "abc") = Option.none ∧
    parse_int (some "") = Option.none ∧
    parse_int Option.none = Option.none ∧
    (∀ cs, (digitRuns cs).flatten = cs.filter Char.isDigit) ∧
    (∀ raw : String,
      pyLower (pyStrip raw.toList) ∉ pySentinels →
      pyIntFloat? (cleanSeparators (pyLower (pyStrip raw.toList))) =
        Option.none →
      parse_int (some raw) =
        (if ((cleanSeparators (pyLower (pyStrip raw.toList))).filter
              Char.isDigit).isEmpty then Option.none
         else some (Int.ofNat (digitsToNat
           ((cleanSeparators (pyLower (pyStrip raw.toList))).filter
             Char.isDigit))))) := by
  refine ⟨by decide, by decide, by decide, by decide, rfl,
    digitRuns_flatten, ?_⟩
  intro raw h1 h2
  simp only [parse_int, h2, if_neg h1, digitRuns_flatten]

theorem C2_parse_int_amended_witness :
    (pyLower (pyStrip "7 pcs".toList) ∉ pySentinels) ∧
    (pyIntFloat? (cleanSeparators (pyLower (pyStrip "7 pcs".toList))) =
      Option.none) ∧
    parse_int (some "7 pcs") =
      (if ((cleanSeparators (pyLower (pyStrip "7 pcs".toList))).filter
            Char.isDigit).isEmpty then Option.none
       else some (Int.ofNat (digitsToNat
         ((cleanSeparators (pyLower (pyStrip "7 pcs".toList))).filter
           Char.isDigit)))) :=
  ⟨by decide, by decide,
   C2_parse_int_amended.2.2.2.2.2.2 "7 pcs" (by decide) (by decide)⟩

/-- Python `str.upper()` (ASCII range, as used on these category names). -/
def pyUpper (s : String) : String := String.mk (s.toList.map Char.toUpper)

/-- Core of Python `int(s)` after whitespace stripping: optional sign
and a PEP 515 digit group; failure models the `ValueError`. -/
def pyIntCore? : List Char → Option Int
  | '+' :: rest => (underscoredDigits? rest).map (fun ds => (digitsToNat ds : Int))
  | '-' :: rest => (underscoredDigits? rest).map (fun ds => -(digitsToNat ds : Int))
  | cs => (underscoredDigits? cs).map (fun ds => (digitsToNat ds : Int))

/-- Python `int(s)` on a string: optional surrounding whitespace, optional
sign, PEP 515 digit group; failure models the `ValueError`. -/
def pyInt? (s : String) : Option Int :=
  pyIntCore? (pyStrip s.toList)

/-- The hardcoded fallback category table of `map_category_to_id`
(src/core/excel_to_json_custom.py, lines 78-115). -/
def hardcoded_category_mapping : List (String × Int) :=
  [("SYRINGES", 59), ("NEEDLES", 60), ("SCALP VEIN SETS", 61),
   ("BLOOD LANCETS", 62), ("INFUSION SETS", 63),
   ("INFUSION ACCESORIES", 64), ("TRANSFUSION SETS", 65),
   ("EXTENSION TUBES", 66), ("IV CANNULAS", 67), ("GLOVES", 68),
   ("CONDOMS", 69), ("ADHESIVE TAPES & DRESSINGS", 70), ("GAUZE", 71),
   ("DISPOSABLE NON-WOVEN GOURMENTS", 72), ("URINARY CATHETERS", 73),
   ("HEMODIALYSIS CATHETERS", 74), ("SUCTION CATHETER", 75),
   ("ENTERAL FEEDING TUBES", 76), ("BLOOD EXTRACTION", 77),
   ("CENTRAL VENOUS CATHETERS (CVC)", 78), ("ELECTRODES", 79),
   ("ENDOBRONCHEAL TUBES", 80), ("ENDOTRACHEAL TUBES", 81),
   ("LARYNGEAL MASKS", 82), ("NASA OXYGEN CANNULA", 83),
   ("NASOPHARINGEAL AIRWAYS", 84), ("PHARINGEAL AIRWAYS", 85),
   ("PRESSURE TRANSDUCERS", 86), ("RESPIRATORY CIRCUITS", 87),
   ("RESPIRATORY MASKS", 88), ("STOMACH TUBES", 89),
   ("SUCTION TUBE + JANKAUER HANDLE", 90), ("TRACHEOSTOMY", 91),
   ("URINE BAGS", 92), ("DISPOSABLE NON-WOVEN OPERATION ROOMS", 93)]

/-- `map_category_to_id` (src/core/excel_to_json_custom.py, lines
70-118): first an exact case-insensitive name match against the fetched
`categories_map` (a dict id-string → name, modelled as an association
list in insertion order), then the hardcoded fallback table keyed by the
upper-cased name with default id 59 ("SYRINGES").  The `Option` models
the `ValueError` of `int(cat_id)` on a malformed key; the single
`(id, found)` pair models the source's `tuple[int, bool]` result. -/
def map_category_to_id (category_name : String)
    (categories_map : List (String × String)) : Option (Int × Bool) :=
  match categories_map.find? (fun e => pyUpper e.2 == pyUpper category_name) with
  | some e => (pyInt? e.1).map (fun n => (n, true))
  | Option.none =>
    let category_id :=
      ((hardcoded_category_mapping.find?
          (fun e => e.1 == pyUpper category_name)).map (fun e => e.2)).getD 59
    some (category_id, false)

/-- C3 counterexample: for a name matching neither the fetched mapping
nor the hardcoded fallback, `map_category_to_id` returns the guessed
default category id 59 ("SYRINGES") rather than an id-free unresolved
outcome; only the boolean flag marks it unresolved. -/
theorem C3_default_id_counterexample :
    map_category_to_id "UNRESOLVED CATEGORY XYZ" [] = some (59, false) ∧
    hardcoded_category_mapping.find?
      (fun e => e.1 == pyUpper "UNRESOLVED CATEGORY XYZ") = Option.none ∧
    (59, false) = (((hardcoded_category_mapping.find?
      (fun e => e.1 == pyUpper "SYRINGES")).map (fun e => e.2)).getD 59,
        false) := by
  refine ⟨by decide, by decide, by decide⟩

/-- C3 (amended): category resolution tries an exact case-insensitive
name match against the freshly fetched mapping table first, then an
exact match against the hardcoded fallback table; when neither matches
it returns the guessed default category id 59 ("SYRINGES") together
with `found = False` — the boolean marks the outcome unresolved but a
default id is still produced.  Resolution returns at most one id. -/
theorem C3_category_resolution_amended :
    (∀ (name : String) (cmap : List (String × String)) (e : String × String),
      cmap.find? (fun en => pyUpper en.2 == pyUpper name) = some e →
      map_category_to_id name cmap = (pyInt? e.1).map (fun n => (n, true))) ∧
    (∀ (name : String) (cmap : List (String × String)),
      cmap.find? (fun en => pyUpper en.2 == pyUpper name) = Option.none →
      map_category_to_id name cmap =
        some ((((hardcoded_category_mapping.find?
          (fun en => en.1 == pyUpper name)).map (fun en => en.2)).getD 59),
            false)) := by
  constructor
  · intro name cmap e h
    simp only [map_category_to_id, h]
  · intro name cmap h
    simp only [map_category_to_id, h]

theorem C3_category_resolution_amended_witness :
    ([("77", "BLOOD EXTRACTION")].find?
      (fun en => pyUpper en.2 == pyUpper "Blood Extraction") =
        some ("77", "BLOOD EXTRACTION")) ∧
    map_category_to_id "Blood Extraction" [("77", "BLOOD EXTRACTION")] =
      (pyInt? "77").map (fun n => (n, true)) :=
  ⟨by decide,
   C3_category_resolution_amended.1 "Blood Extraction"
     [("77", "BLOOD EXTRACTION")] ("77", "BLOOD EXTRACTION") (by decide)⟩

/-- One attempt's outcome at the transport layer: a raised
`requests.exceptions.RequestException`, or an HTTP response with some
status code. -/
inductive NetOutcome where
  | transportError : NetOutcome
  | response (status : Nat) : NetOutcome
deriving DecidableEq, Repr

/-- Static shape of a network call site: the timeout handed to
`requests` (none = no timeout, i.e. unbounded wait) and the maximum
number of attempts made. -/
structure RequestSpec where
  timeout : Option Nat
  maxAttempts : Nat
deriving DecidableEq, Repr

/-- `TIMEOUT = 5` (src/utils/strapi.py, line 23). -/
def TIMEOUT : Nat := 5

/-- `MAX_RETRIES = 3` (src/utils/strapi.py, line 24). -/
def MAX_RETRIES : Nat := 3

/-- Call shape of `_make_request` (src/utils/strapi.py, lines 45-48):
`kwargs.setdefault("timeout", TIMEOUT)` and `for attempt in
range(MAX_RETRIES)`; no caller in the repo overrides the timeout. -/
def strapiRequestSpec : RequestSpec := ⟨some TIMEOUT, MAX_RETRIES⟩

/-- Call shape of `BatchUploader.upload_single_product`
(src/uploaders/batch_upload_products.py, line 46):
`requests.post(PRODUCTION_URL, json=product, headers=headers)` — no
timeout argument and a single attempt inside one `try`. -/
def batchUploadRequestSpec : RequestSpec := ⟨Option.none, 1⟩

/-- The claim's "upload client" network call sites. -/
def uploadClientRequestSpecs : List RequestSpec :=
  [strapiRequestSpec, batchUploadRequestSpec]

/-- Retry loop of `_make_request` over an oracle giving each attempt's
outcome: any response is returned immediately (whatever its status);
a transport error moves to the next attempt until the attempts are
exhausted, which yields `None`. -/
def makeRequestLoop (attempts : Nat → NetOutcome) : Nat → Nat → Option Nat
  | _, 0 => Option.none
  | i, fuel + 1 =>
    match attempts i with
    | .response st => some st
    | .transportError => makeRequestLoop attempts (i + 1) fuel

/-- `_make_request` (src/utils/strapi.py, lines 33-58), reduced to the
status code of the returned response. -/
def _make_request (attempts : Nat → NetOutcome) : Option Nat :=
  makeRequestLoop attempts 0 MAX_RETRIES

/-- `upsert_product` (src/utils/strapi.py, lines 106-145), reduced to
the status code: both the update (PUT) branch and the create (POST)
branch accept exactly HTTP 200/201 and return `None` otherwise. -/
def upsert_product (existing : Bool) (attempts : Nat → NetOutcome) :
    Option Nat :=
  match existing with
  | true =>
    match _make_request attempts with
    | some st => if st = 200 ∨ st = 201 then some st else Option.none
    | Option.none => Option.none
  | false =>
    match _make_request attempts with
    | some st => if st = 200 ∨ st = 201 then some st else Option.none
    | Option.none => Option.none

/-- `delete_product` (src/utils/strapi.py, lines 147-163): true exactly
for HTTP 200/204. -/
def delete_product (attempts : Nat → NetOutcome) : Bool :=
  match _make_request attempts with
  | some st => st == 200 || st == 204
  | Option.none => false

/-- `BatchUploader.upload_single_product`
(src/uploaders/batch_upload_products.py, lines 35-74), reduced to its
`success` field: one `requests.post`, success exactly for HTTP 200/201,
any exception caught and reported as failure. -/
def upload_single_product (attempts : Nat → NetOutcome) : Bool :=
  match attempts 0 with
  | .response st => st == 200 || st == 201
  | .transportError => false

/-- C4 counterexample: the batch uploader's network call — one of the
upload client's call sites the claim quantifies over — passes no timeout
at all (an unbounded wait) and makes a single attempt, so "every network
call of the upload client uses a bounded timeout" is false. -/
theorem C4_no_timeout_counterexample :
    batchUploadRequestSpec ∈ uploadClientRequestSpecs ∧
    batchUploadRequestSpec.timeout = Option.none ∧
    batchUploadRequestSpec.maxAttempts = 1 ∧
    strapiRequestSpec.timeout = some 5 := by
  refine ⟨by decide, rfl, rfl, rfl⟩

/-- C4 (amended): the calls routed through `_make_request` use the
bounded timeout 5 and at most `MAX_RETRIES = 3` attempts, retrying only
transport-level failures — any HTTP response, 4xx/5xx included, is final
and never retried; create/update succeeds only for HTTP 200/201 and
delete only for 200/204, all other outcomes reported as `None`/`False`
rather than raised.  The batch uploader's `upload_single_product`,
however, posts with no timeout and a single attempt, succeeding only for
HTTP 200/201 and reporting any exception as failure. -/
theorem C4_upload_client_amended :
    strapiRequestSpec = ⟨some 5, 3⟩ ∧
    batchUploadRequestSpec = ⟨Option.none, 1⟩ ∧
    (∀ (attempts : Nat → NetOutcome) (i st : Nat), i < MAX_RETRIES →
      (∀ j, j < i → attempts j = .transportError) →
      attempts i = .response st →
      _make_request attempts = some st) ∧
    (∀ attempts : Nat → NetOutcome,
      (∀ j, j < MAX_RETRIES → attempts j = .transportError) →
      _make_request attempts = Option.none) ∧
    (∀ (existing : Bool) (attempts : Nat → NetOutcome) (st : Nat),
      _make_request attempts = some st →
      upsert_product existing attempts =
        (if st = 200 ∨ st = 201 then some st else Option.none)) ∧
    (∀ (existing : Bool) (attempts : Nat → NetOutcome),
      _make_request attempts = Option.none →
      upsert_product existing attempts = Option.none) ∧
    (∀ (attempts : Nat → NetOutcome) (st : Nat),
      _make_request attempts = some st →
      delete_product attempts = (st == 200 || st == 204)) ∧
    (∀ (attempts : Nat → NetOutcome) (st : Nat),
      attempts 0 = .response st →
      upload_single_product attempts = (st == 200 || st == 201)) ∧
    (∀ attempts : Nat → NetOutcome,
      attempts 0 = .transportError →
      upload_single_product attempts = false) := by
  refine ⟨rfl, rfl, ?_, ?_, ?_, ?_, ?_, ?_, ?_⟩
  · intro attempts i st hi hprev hresp
    simp only [MAX_RETRIES] at hi
    interval_cases i
    · simp only [_make_request, MAX_RETRIES, makeRequestLoop, hresp]
    · simp only [_make_request, MAX_RETRIES, makeRequestLoop,
        hprev 0 (by decide), hresp]
    · simp only [_make_request, MAX_RETRIES, makeRequestLoop,
        hprev 0 (by decide), hprev 1 (by decide), hresp]
  · intro attempts h
    simp only [_make_request, MAX_RETRIES, makeRequestLoop,
      h 0 (by decide), h (0 + 1) (by decide), h (0 + 1 + 1) (by decide)]
  · intro existing attempts st h
    cases existing <;> simp only [upsert_product, h]
  · intro existing attempts h
    cases existing <;> simp only [upsert_product, h]
  · intro attempts st h
    simp only [delete_product, h]
  · intro attempts st h
    simp only [upload_single_product, h]
  · intro attempts h
    simp only [upload_single_product, h]

/-- Attempt oracle for the C4 witness: every attempt answers HTTP 404. -/
def C4_attempts404 : Nat → NetOutcome := fun _ => .response 404

theorem C4_upload_client_amended_witness :
    (0 < MAX_RETRIES) ∧
    (C4_attempts404 0 = .response 404) ∧
    _make_request C4_attempts404 = some 404 :=
  ⟨by decide, rfl,
   C4_upload_client_amended.2.2.1 C4_attempts404 0 404 (by decide)
     (fun j hj => absurd hj (by omega)) rfl⟩

/-- The ASCII character of a decimal digit. -/
def digitChar : Nat → Char
  | 0 => '0' | 1 => '1' | 2 => '2' | 3 => '3' | 4 => '4'
  | 5 => '5' | 6 => '6' | 7 => '7' | 8 => '8' | _ => '9'

/-- Decimal digits of `n`, most significant first; `fuel` bounds the
recursion depth (any `fuel > n` is exact). -/
def natReprAux : Nat → Nat → List Char
  | 0, _ => []
  | fuel + 1, n =>
    if n < 10 then [digitChar n]
    else natReprAux fuel (n / 10) ++ [digitChar (n % 10)]

/-- Decimal rendering of a natural number (Python `str(n)` / f-string
formatting of a non-negative int). -/
def natRepr (n : Nat) : String := String.mk (natReprAux (n + 1) n)

theorem digitChar_toNat (n : Nat) (h : n < 10) :
    (digitChar n).toNat = 48 + n := by
  interval_cases n <;> rfl

theorem digitsToNat_append_digit (ds : List Char) (c : Char) :
    digitsToNat (ds ++ [c]) = 10 * digitsToNat ds + (c.toNat - 48) := by
  simp [digitsToNat, List.foldl_append]

theorem natReprAux_digitsToNat (fuel n : Nat) (h : n < fuel) :
    digitsToNat (natReprAux fuel n) = n := by
  induction fuel generalizing n with
  | zero => omega
  | succ fuel ih =>
    by_cases hn : n < 10
    · simp [natReprAux, hn, digitsToNat, digitChar_toNat n hn]
    · have hdiv : n / 10 < fuel := by omega
      simp only [natReprAux, hn, if_neg, if_false, digitsToNat_append_digit,
        ih (n / 10) hdiv, digitChar_toNat (n % 10) (by omega)]
      omega

theorem natRepr_injective (m n : Nat) (h : natRepr m = natRepr n) :
    m = n := by
  have hlist : natReprAux (m + 1) m = natReprAux (n + 1) n :=
    congrArg String.data h
  have hm := natReprAux_digitsToNat (m + 1) m (by omega)
  have hn := natReprAux_digitsToNat (n + 1) n (by omega)
  rw [← hm, ← hn, hlist]

/-- Python `str(n)` for an `int` (possibly negative). -/
def intKey (n : Int) : String :=
  if n < 0 then "-" ++ natRepr (-n).toNat else natRepr n.toNat

/-- A raw spreadsheet row of src/core/excel_to_json.py after
`pd.read_excel`: each cell is modelled post-`str()` as `Option String`,
`Option.none` standing for a missing/NaN cell. -/
structure JsonRow where
  name : Option String
  referenceString : Option String
  standard : Option String
  description : Option String
  tableInMd : Option String
  category : Option String
  divisions : Option String

/-- `str(x)` of a cell: a NaN cell prints as `"nan"`. -/
def pyStrCell : Option String → String
  | Option.none => "nan"
  | some s => s

/-- Python truthiness of a raw cell: `float("nan")` is truthy, the empty
string is falsy. -/
def cellTruthy : Option String → Bool
  | Option.none => true
  | some s => s ≠ ""

/-- `parse_divisions` (src/core/excel_to_json.py, lines 56-65): split the
cell on commas, strip, drop empty segments, convert each to `int`; a
`ValueError` on any segment makes the whole result `[]`. -/
def parse_divisions (divisions_str : Option String) : List Int :=
  match divisions_str with
  | Option.none => []
  | some s =>
    if s = "" then []
    else
      let kept := ((splitOnChar ',' s.toList).map pyStrip).filter
        (fun p => !p.isEmpty)
      match kept.mapM pyIntCore? with
      | some ids => ids
      | Option.none => []

/-- `get_division_names` (src/core/excel_to_json.py, lines 68-78): look
each id up under its string form; found names and missing ids keep the
input order. -/
def get_division_names (division_ids : List Int)
    (divisions_map : List (String × String)) : List String × List Int :=
  match division_ids with
  | [] => ([], [])
  | div_id :: rest =>
    let r := get_division_names rest divisions_map
    match divisions_map.find? (fun e => e.1 == intKey div_id) with
    | some e => (e.2 :: r.1, r.2)
    | Option.none => (r.1, div_id :: r.2)

/-- The product record built by `process_row` (fields that vary by row;
`images` and `PackagingInformation` are constants in the source). -/
structure JsonProduct where
  name : String
  referenceString : String
  standard : String
  description : String
  tableInMd : String
  category : Option Int
  categoryName : String
  divisions : List Int
  divisionNames : List String

/-- `process_row` (src/core/excel_to_json.py, lines 81-145): parse the
divisions, resolve their names, resolve the category by exact key match
on `str(category_id)`, and return `None` ("skip the row") unless the
category was found and no division id is missing; the `int(category_id)`
conversion sits inside the row's `try`, so its `ValueError` also yields
`None`.  The source computes `category_found` as a flag and tests
`if not category_found or missing_division_ids` once; the nested
conditionals here are the same test. -/
def process_row (row : JsonRow)
    (categories_map divisions_map : List (String × String)) :
    Option JsonProduct :=
  let division_ids := parse_divisions row.divisions
  let names_missing := get_division_names division_ids divisions_map
  if cellTruthy row.category then
    match categories_map.find? (fun e => e.1 == pyStrCell row.category) with
    | some e =>
      if names_missing.2.isEmpty then
        match pyInt? (pyStrCell row.category) with
        | some cid =>
          some { name := pyStrCell row.name,
                 referenceString := pyStrCell row.referenceString,
                 standard := pyStrCell row.standard,
                 description := pyStrCell row.description,
                 tableInMd := pyStrCell row.tableInMd,
                 category := some cid,
                 categoryName := e.2,
                 divisions := division_ids,
                 divisionNames := names_missing.1 }
        | Option.none => Option.none
      else Option.none
    | Option.none => Option.none
  else Option.none

theorem get_division_names_complete (ids : List Int)
    (dmap : List (String × String))
    (h : (get_division_names ids dmap).2 = []) :
    List.Forall₂
      (fun id name => ∃ e, dmap.find? (fun en => en.1 == intKey id) = some e ∧
        e.2 = name)
      ids (get_division_names ids dmap).1 := by
  induction ids with
  | nil => exact List.Forall₂.nil
  | cons i rest ih =>
    simp only [get_division_names] at h ⊢
    cases hfind : dmap.find? (fun en => en.1 == intKey i) with
    | none => simp [hfind] at h
    | some e =>
      simp only [hfind] at h ⊢
      exact List.Forall₂.cons ⟨e, hfind, rfl⟩ (ih h)

/-- C10: `process_row` returns a product only when the row's category id
is an exact key of the categories map and every parsed division id is a
key of the divisions map; every emitted product carries a non-null
resolved category and a division-name list covering all of its division
ids, pairwise in order.  (The unresolved/missing/exception branches all
return `None` and the row is skipped.) -/
theorem C10_process_row_invariant (row : JsonRow)
    (cmap dmap : List (String × String)) (p : JsonProduct)
    (h : process_row row cmap dmap = some p) :
    cellTruthy row.category = true ∧
    (∃ e, cmap.find? (fun en => en.1 == pyStrCell row.category) = some e ∧
      p.categoryName = e.2) ∧
    p.category.isSome = true ∧
    (get_division_names (parse_divisions row.divisions) dmap).2 = [] ∧
    p.divisions = parse_divisions row.divisions ∧
    List.Forall₂
      (fun id name => ∃ e, dmap.find? (fun en => en.1 == intKey id) = some e ∧
        e.2 = name)
      p.divisions p.divisionNames := by
  dsimp only [process_row] at h
  split at h
  · rename_i hct
    split at h
    · rename_i e hfind
      split at h
      · rename_i hempty
        split at h
        · rename_i cid hcid
          injection h with h
          subst h
          have hmiss : (get_division_names (parse_divisions row.divisions)
              dmap).2 = [] := List.isEmpty_iff.mp hempty
          refine ⟨hct, ⟨e, hfind, rfl⟩, rfl, hmiss, rfl, ?_⟩
          exact get_division_names_complete _ _ hmiss
        · exact absurd h (by simp)
      · exact absurd h (by simp)
    · exact absurd h (by simp)
  · exact absurd h (by simp)

/-- Row, mapping tables and resulting product for the C10 witness. -/
def C10_row : JsonRow :=
  { name := some "Syringe 2ml", referenceString := some "1.1",
    standard := some "ISO 7886", description := some "",
    tableInMd := some "", category := some "59",
    divisions := some "47" }

def C10_cmap : List (String × String) := [("59", "SYRINGES")]

def C10_dmap : List (String × String) := [("47", "INFUSION")]

def C10_product : JsonProduct :=
  { name := "Syringe 2ml", referenceString := "1.1",
    standard := "ISO 7886", description := "", tableInMd := "",
    category := some 59, categoryName := "SYRINGES",
    divisions := [47], divisionNames := ["INFUSION"] }

theorem C10_process_row_invariant_witness :
    cellTruthy C10_row.category = true ∧
    (∃ e, C10_cmap.find? (fun en => en.1 == pyStrCell C10_row.category) =
        some e ∧ C10_product.categoryName = e.2) ∧
    C10_product.category.isSome = true ∧
    (get_division_names (parse_divisions C10_row.divisions) C10_dmap).2 =
      [] ∧
    C10_product.divisions = parse_divisions C10_row.divisions ∧
    List.Forall₂
      (fun id name =>
        ∃ e, C10_dmap.find? (fun en => en.1 == intKey id) = some e ∧
          e.2 = name)
      C10_product.divisions C10_product.divisionNames :=
  C10_process_row_invariant C10_row C10_cmap C10_dmap C10_product rfl

theorem natReprAux_ne_nil (fuel n : Nat) (h : 0 < fuel) :
    natReprAux fuel n ≠ [] := by
  match fuel, h with
  | fuel + 1, _ =>
    by_cases hn : n < 10
    · simp [natReprAux, hn]
    · simp [natReprAux, hn]

theorem natRepr_length_pos (n : Nat) : 0 < (natRepr n).length := by
  have h := natReprAux_ne_nil (n + 1) n (by omega)
  simp only [natRepr, String.length]
  cases hc : natReprAux (n + 1) n with
  | nil => exact absurd hc h
  | cons c cs => simp

/-- Python `\w` (ASCII): letters, digits and underscore. -/
def isWordChar (c : Char) : Bool := c.isAlphanum || c == '_'

/-- Scanner behind the `re.sub(r"[-\s]+", "-", text)` step: a maximal
run of hyphens/whitespace becomes one hyphen; `inRun` tells whether the
previous character belonged to such a run. -/
def collapseAux : List Char → Bool → List Char
  | [], _ => []
  | c :: rest, inRun =>
    if c == '-' || c.isWhitespace then
      if inRun then collapseAux rest true else '-' :: collapseAux rest true
    else c :: collapseAux rest false

/-- Python `str.strip('-')`. -/
def stripHyphens (cs : List Char) : List Char :=
  ((cs.dropWhile (fun c => c == '-')).reverse.dropWhile
    (fun c => c == '-')).reverse

/-- `slugify` (src/core/slug_builder.py, lines 16-42): lower-case, keep
word characters / whitespace / hyphens, collapse hyphen-or-whitespace
runs into single hyphens, strip surrounding hyphens.  The NFD unicode
normalization of the source is the identity on ASCII names and is not
modelled. -/
def slugify (text : String) : String :=
  if text = "" then ""
  else
    let cs := text.toList.map Char.toLower
    let kept := cs.filter (fun c => isWordChar c || c.isWhitespace || c == '-')
    String.mk (stripHyphens (collapseAux kept false))

/-- The f-string `f"{base_slug}-{counter}"` of `generate_unique_slug`. -/
def slugCandidate (base : String) (counter : Nat) : String :=
  base ++ "-" ++ natRepr counter

/-- The candidate tried by the slug loop at step `j`: the base slug
itself first, then the suffixed candidates in counter order. -/
def candAt (base : String) : Nat → String
  | 0 => base
  | j + 1 => slugCandidate base (j + 1)

/-- `while slug in existing_slugs:` loop of `generate_unique_slug`
(src/core/slug_builder.py, lines 61-68).  `fuel` bounds the unrolling;
`existing.length + 1` steps always suffice (proved below), so the
exhaustion branch is never reached by `generate_unique_slug`. -/
def genSlugLoop (base : String) (existing : List String) :
    String → Nat → Nat → String
  | slug, _, 0 => slug
  | slug, counter, fuel + 1 =>
    if slug ∈ existing then
      genSlugLoop base existing (slugCandidate base counter) (counter + 1) fuel
    else slug

/-- `generate_unique_slug` (src/core/slug_builder.py, lines 45-68). -/
def generate_unique_slug (name : String) (existing : List String) : String :=
  let base := slugify name
  let base := if base = "" then "product" else base
  genSlugLoop base existing base 1 (existing.length + 1)

theorem natReprAux_inj (m n : Nat)
    (h : natReprAux (m + 1) m = natReprAux (n + 1) n) : m = n := by
  rw [← natReprAux_digitsToNat (m + 1) m (by omega),
    ← natReprAux_digitsToNat (n + 1) n (by omega), h]

theorem candAt_injective (base : String) : Function.Injective (candAt base) := by
  intro a b h
  match a, b with
  | 0, 0 => rfl
  | 0, b + 1 =>
    exfalso
    have hl := congrArg String.length h
    simp only [candAt, slugCandidate, String.length_append] at hl
    have := natRepr_length_pos (b + 1)
    omega
  | a + 1, 0 =>
    exfalso
    have hl := congrArg String.length h
    simp only [candAt, slugCandidate, String.length_append] at hl
    have := natRepr_length_pos (a + 1)
    omega
  | a + 1, b + 1 =>
    have hd := congrArg String.data h
    simp only [candAt, slugCandidate, String.data_append,
      List.append_assoc] at hd
    have hrepr : (natRepr (a + 1)).data = (natRepr (b + 1)).data :=
      List.append_cancel_left (List.append_cancel_left hd)
    have := natReprAux_inj (a + 1) (b + 1) hrepr
    omega

theorem exists_fresh_candAt (base : String) (existing : List String) :
    ∃ j, j ≤ existing.length + 1 ∧ candAt base j ∉ existing := by
  by_contra hall
  push_neg at hall
  set n := existing.length with hn
  have hmem : ∀ x ∈ (List.range (n + 2)).map (candAt base), x ∈ existing := by
    intro x hx
    obtain ⟨j, hj, rfl⟩ := List.mem_map.mp hx
    exact hall j (by simpa using Nat.lt_succ_iff.mp (List.mem_range.mp hj))
  have hnodup : ((List.range (n + 2)).map (candAt base)).Nodup :=
    (List.nodup_range _).map (candAt_injective base)
  have hsub : ((List.range (n + 2)).map (candAt base)).toFinset ⊆
      existing.toFinset := by
    intro x hx
    exact List.mem_toFinset.mpr (hmem x (List.mem_toFinset.mp hx))
  have hc1 : ((List.range (n + 2)).map (candAt base)).toFinset.card = n + 2 := by
    rw [List.toFinset_card_of_nodup hnodup]
    simp
  have hc2 : existing.toFinset.card ≤ n := by
    simpa [hn] using List.toFinset_card_le (l := existing)
  have := Finset.card_le_card hsub
  omega

theorem genSlugLoop_fresh (fuel : Nat) (base : String)
    (existing : List String) (i : Nat)
    (hex : ∃ j, i ≤ j ∧ j ≤ i + fuel ∧ candAt base j ∉ existing) :
    genSlugLoop base existing (candAt base i) (i + 1) fuel ∉ existing := by
  induction fuel generalizing i with
  | zero =>
    obtain ⟨j, hij, hji, hfresh⟩ := hex
    have : j = i := by omega
    subst this
    simpa [genSlugLoop] using hfresh
  | succ fuel ih =>
    by_cases hin : candAt base i ∈ existing
    · have hcand : slugCandidate base (i + 1) = candAt base (i + 1) := rfl
      simp only [genSlugLoop, if_pos hin, hcand]
      apply ih (i + 1)
      obtain ⟨j, hij, hji, hfresh⟩ := hex
      have hne : j ≠ i := fun hji' => hfresh (by rw [hji']; exact hin)
      exact ⟨j, by omega, by omega, hfresh⟩
    · simpa [genSlugLoop, if_neg hin] using hin

theorem generate_unique_slug_fresh (name : String) (existing : List String) :
    generate_unique_slug name existing ∉ existing := by
  dsimp only [generate_unique_slug]
  have hbase : (if slugify name = "" then "product" else slugify name) =
      candAt (if slugify name = "" then "product" else slugify name) 0 := rfl
  rw [hbase]
  apply genSlugLoop_fresh
  obtain ⟨j, hj, hfresh⟩ := exists_fresh_candAt
    (if slugify name = "" then "product" else slugify name) existing
  exact ⟨j, by omega, by omega, hfresh⟩

/-- A catalog entry as seen by the slug builder: the `name` under
`product['data']` and the `slug` the script may add there (`Option.none`
when the key is absent). -/
structure SlugProduct where
  name : String
  slug : Option String
deriving DecidableEq, Repr

/-- Per-product loop of `add_slugs_to_products` (src/core/slug_builder.py,
lines 90-110): products with a falsy name are passed through unchanged;
otherwise a unique slug is generated against the accumulated
`existing_slugs` set and stored on the product. -/
def add_slugs_loop (products : List SlugProduct) (existing : List String) :
    List SlugProduct :=
  match products with
  | [] => []
  | p :: rest =>
    if p.name = "" then p :: add_slugs_loop rest existing
    else
      let slug := generate_unique_slug p.name existing
      { p with slug := some slug } :: add_slugs_loop rest (slug :: existing)

/-- `add_slugs_to_products` (src/core/slug_builder.py, lines 71-116):
process `products[:limit] if limit else products`, then append the
unprocessed remainder `products[limit:]` when a non-zero limit cuts the
list short. -/
def add_slugs_to_products (products : List SlugProduct)
    (limit : Option Nat) : List SlugProduct :=
  let products_to_process :=
    match limit with
    | some l => if l = 0 then products else products.take l
    | Option.none => products
  let updated_products := add_slugs_loop products_to_process []
  match limit with
  | some l =>
    if l ≠ 0 ∧ l < products.length then updated_products ++ products.drop l
    else updated_products
  | Option.none => updated_products

theorem filterMap_slug_of_none (l : List SlugProduct)
    (h : ∀ p ∈ l, p.slug = Option.none) :
    l.filterMap (fun p => p.slug) = [] := by
  induction l with
  | nil => rfl
  | cons p rest ih =>
    have hp := h p (List.mem_cons_self p rest)
    simp only [List.filterMap_cons, hp]
    exact ih (fun q hq => h q (List.mem_cons_of_mem p hq))

theorem add_slugs_loop_invariant (products : List SlugProduct)
    (existing : List String)
    (h : ∀ p ∈ products, p.slug = Option.none) :
    ((add_slugs_loop products existing).filterMap (fun p => p.slug)).Nodup ∧
    ∀ s ∈ (add_slugs_loop products existing).filterMap (fun p => p.slug),
      s ∉ existing := by
  induction products generalizing existing with
  | nil => exact ⟨List.nodup_nil, by simp [add_slugs_loop]⟩
  | cons p rest ih =>
    have hp := h p (List.mem_cons_self p rest)
    have hrest := fun q hq => h q (List.mem_cons_of_mem p hq)
    by_cases hname : p.name = ""
    · simp only [add_slugs_loop, if_pos hname, List.filterMap_cons, hp]
      exact ih existing hrest
    · have hfresh := generate_unique_slug_fresh p.name existing
      obtain ⟨hnd, hnotin⟩ :=
        ih (generate_unique_slug p.name existing :: existing) hrest
      simp only [add_slugs_loop, if_neg hname, List.filterMap_cons]
      constructor
      · refine List.Nodup.cons ?_ hnd
        intro hmem
        exact hnotin _ hmem (List.mem_cons_self _ _)
      · intro s hs
        rcases List.mem_cons.mp hs with rfl | hs'
        · exact hfresh
        · exact fun hex =>
            hnotin s hs' (List.mem_cons_of_mem _ hex)

/-- C8: after `add_slugs_to_products` runs over a catalog (whose
products do not yet carry slugs), every assigned slug is distinct from
every other assigned slug; two products both named "Syringe" receive, in
order, the slugs "syringe" and "syringe-1". -/
theorem C8_slug_uniqueness :
    (∀ (products : List SlugProduct) (limit : Option Nat),
      (∀ p ∈ products, p.slug = Option.none) →
      ((add_slugs_to_products products limit).filterMap
        (fun p => p.slug)).Nodup) ∧
    add_slugs_to_products
        [⟨"Syringe", Option.none⟩, ⟨"Syringe", Option.none⟩] Option.none =
      [⟨"Syringe", some "syringe"⟩, ⟨"Syringe", some "syringe-1"⟩] := by
  constructor
  · intro products limit h
    cases limit with
    | none => exact (add_slugs_loop_invariant products [] h).1
    | some l =>
      dsimp only [add_slugs_to_products]
      by_cases hl0 : l = 0
      · subst hl0
        simp only [if_pos rfl]
        have : ¬((0 : Nat) ≠ 0 ∧ 0 < products.length) := by simp
        rw [if_neg this]
        exact (add_slugs_loop_invariant products [] h).1
      · rw [if_neg hl0]
        have htake : ∀ p ∈ products.take l, p.slug = Option.none :=
          fun p hp => h p (List.take_subset l products hp)
        by_cases hlen : l < products.length
        · rw [if_pos ⟨hl0, hlen⟩, List.filterMap_append,
            filterMap_slug_of_none (products.drop l)
              (fun p hp => h p (List.drop_subset l products hp)),
            List.append_nil]
          exact (add_slugs_loop_invariant _ [] htake).1
        · rw [if_neg (fun hc => hlen hc.2)]
          exact (add_slugs_loop_invariant _ [] htake).1
  · rfl

theorem C8_slug_uniqueness_witness :
    ((add_slugs_to_products
        [⟨"Syringe", Option.none⟩, ⟨"Syringe", Option.none⟩]
        Option.none).filterMap (fun p => p.slug)).Nodup :=
  C8_slug_uniqueness.1
    [⟨"Syringe", Option.none⟩, ⟨"Syringe", Option.none⟩] Option.none
    (by decide)

/-- Regular expressions over characters, sufficient for the alias table
of src/excel_to_products.py (lines 8-23). -/
inductive Rx where
  | emp : Rx
  | eps : Rx
  | chr (c : Char) : Rx
  | cls (p : Char → Bool) : Rx
  | alt (a b : Rx) : Rx
  | cat (a b : Rx) : Rx
  | star (a : Rx) : Rx

/-- Does the regex accept the empty string? -/
def Rx.nullable : Rx → Bool
  | .emp => false
  | .eps => true
  | .chr _ => false
  | .cls _ => false
  | .alt a b => a.nullable || b.nullable
  | .cat a b => a.nullable && b.nullable
  | .star _ => true

/-- Brzozowski derivative with respect to one character. -/
def Rx.deriv : Rx → Char → Rx
  | .emp, _ => .emp
  | .eps, _ => .emp
  | .chr d, c => if c = d then .eps else .emp
  | .cls p, c => if p c then .eps else .emp
  | .alt a b, c => .alt (a.deriv c) (b.deriv c)
  | .cat a b, c =>
    if a.nullable then .alt (.cat (a.deriv c) b) (b.deriv c)
    else .cat (a.deriv c) b
  | .star a, c => .cat (a.deriv c) (.star a)

/-- Full-string match via iterated derivatives. -/
def rxMatch (r : Rx) (cs : List Char) : Bool :=
  (cs.foldl Rx.deriv r).nullable

/-- The literal word regex for a string. -/
def str2rx (s : String) : Rx :=
  s.toList.foldr (fun c r => .cat (.chr c) r) .eps

/-- `X?`. -/
def rxOpt (r : Rx) : Rx := .alt r .eps

/-- `\s` (whitespace class). -/
def wsRx : Rx := .cls Char.isWhitespace

/-- `\s*`. -/
def wsStar : Rx := .star wsRx

/-- `.` — any character (the normalized headers contain no newline). -/
def anyRx : Rx := .cls (fun _ => true)

/-- `.*` padding used to express `re.search` of an unanchored pattern as
a full-string match. -/
def anyStar : Rx := .star anyRx

/-- Sequencing of a list of regexes. -/
def rxSeq (rs : List Rx) : Rx := rs.foldr .cat .eps

/-- The `ALIASES` table of src/excel_to_products.py (lines 8-23; the
identical table appears in src/excel_to_products_enriched.py).  Each
Python regex is transcribed as a full-string `Rx`: patterns anchored
`^...$` are transcribed directly, the prefix-only pattern `^iso` gets a
trailing `.*`, and the unanchored patterns `20\s*gp` / `40\s*hc` are
padded with `.*` on both sides, reproducing `re.search` semantics.
Headers are matched after `normalize_header`, which lowercases, so the
`re.IGNORECASE` flag is inert. -/
def ALIASES : List (String × List Rx) :=
  [("reference",
     [str2rx "id.1",
      str2rx "id",
      rxSeq [str2rx "ref", rxOpt (str2rx "erence"),
             rxOpt (rxSeq [wsStar, str2rx "string"])],
      rxSeq [str2rx "product", wsStar, str2rx "id"]]),
   ("category_name",
     [rxSeq [str2rx "product", rxOpt (.chr 's'), rxOpt (.chr '\''), wsStar,
             str2rx "category"],
      rxSeq [str2rx "category", rxOpt (rxSeq [wsStar, str2rx "name"])]]),
   ("product_name",
     [rxSeq [str2rx "product", rxOpt (.chr 's')],
      rxSeq [str2rx "product", wsStar, str2rx "name"],
      str2rx "item"]),
   ("size",
     [rxSeq [str2rx "size", rxOpt (.chr 's')],
      str2rx "variant",
      str2rx "model"]),
   ("picture", [str2rx "picture", str2rx "image", str2rx "photo"]),
   ("ce", [str2rx "ce"]),
   ("ce_mdr",
     [rxSeq [str2rx "ce",
             .star (.cls (fun c => c == '_' || c.isWhitespace || c == '-')),
             str2rx "mdr"]]),
   ("fda", [str2rx "fda"]),
   ("iso",
     [rxSeq [str2rx "iso", wsStar, str2rx "st", wsStar, .chr '/', wsStar,
             str2rx "ard"],
      rxSeq [str2rx "iso", anyStar],
      rxSeq [str2rx "standard", rxOpt (.chr 's')]]),
   ("pcs_inner",
     [rxSeq [str2rx "pcs", rxOpt (.chr '/'), wsStar, str2rx "inner", wsStar,
             str2rx "pack", rxOpt (str2rx "aging")],
      rxSeq [str2rx "inner", wsStar, .alt (str2rx "pcs") (str2rx "qty")]]),
   ("pcs_outer",
     [rxSeq [str2rx "pcs", rxOpt (.chr '/'), wsStar, str2rx "outer", wsStar,
             str2rx "pack", rxOpt (str2rx "aging")],
      rxSeq [str2rx "outer", wsStar, .alt (str2rx "pcs") (str2rx "qty")],
      rxSeq [str2rx "carton", wsStar, str2rx "qty"]]),
   ("loading_20gp",
     [rxSeq [str2rx "loading", wsStar, str2rx "capacity"],
      rxSeq [anyStar, str2rx "20", wsStar, str2rx "gp", anyStar],
      str2rx "20gp"]),
   ("loading_40hc",
     [rxSeq [str2rx "unnamed:", wsStar, str2rx "16"],
      rxSeq [anyStar, str2rx "40", wsStar, str2rx "hc", anyStar],
      str2rx "40hc"]),
   ("carton_size",
     [rxSeq [str2rx "carton", wsStar, str2rx "size"],
      rxSeq [str2rx "ctn", wsStar, str2rx "size"],
      rxSeq [str2rx "box", wsStar, str2rx "size"]])]

/-- Scanner behind `re.sub(r"\s+", " ", h)`: each maximal whitespace run
becomes one space. -/
def collapseWsAux : List Char → Bool → List Char
  | [], _ => []
  | c :: rest, inRun =>
    if c.isWhitespace then
      if inRun then collapseWsAux rest true else ' ' :: collapseWsAux rest true
    else c :: collapseWsAux rest false

/-- `normalize_header` (src/excel_to_products.py, lines 42-43): collapse
whitespace, strip, lowercase. -/
def normalize_header (h : String) : String :=
  String.mk (pyLower (pyStrip (collapseWsAux h.toList false)))

/-- `match_header` (src/excel_to_products.py, lines 45-51): first
canonical entry, in table order, one of whose patterns matches the
normalized header; `Option.none` when no pattern matches (the header is
silently ignored). -/
def match_header (name : String) : Option String :=
  let norm := normalize_header name
  (ALIASES.find? (fun e => e.2.any (fun p => rxMatch p norm.toList))).map
    (fun e => e.1)

/-- One step of the header-dedup loop of `main`
(src/excel_to_products.py, lines 109-121): an unmatched header is
dropped; a matched canonical name already present keeps the mapping
whose raw header is longer, or the incoming header when it is exactly
"ID.1"; otherwise the new mapping is appended. -/
def renameStep (rename : List (String × String)) (c : String) :
    List (String × String) :=
  match match_header c with
  | Option.none => rename
  | some canon =>
    if rename.any (fun kv => kv.2 == canon) then
      let existing_col :=
        (((rename.filter (fun kv => kv.2 == canon)).head?).map
          (fun kv => kv.1)).getD ""
      if existing_col.length < c.length ∨ c = "ID.1" then
        (rename.filter (fun kv => kv.2 != canon)) ++ [(c, canon)]
      else rename
    else rename ++ [(c, canon)]

/-- The full rename map built from the spreadsheet's column list
(src/excel_to_products.py, lines 108-121). -/
def build_rename (columns : List String) : List (String × String) :=
  columns.foldl renameStep []

/-- C7: header matching is a deterministic pure function — for every raw
header it returns the canonical name of the first alias-table entry (in
fixed table order) having a matching pattern, and no match (the header
is silently ignored, never an error) when no pattern matches; when two
raw headers compete for the same canonical name, the retained header is
the longer one, or the incoming one when it is exactly the preferred
alias "ID.1". -/
theorem C7_header_matching :
    (∀ h : String, match_header h = Option.none ↔
      ∀ e ∈ ALIASES, ∀ p ∈ e.2,
        rxMatch p (normalize_header h).toList = false) ∧
    (∀ h c : String, match_header h = some c →
      ∃ pre entry post, ALIASES = pre ++ entry :: post ∧ entry.1 = c ∧
        (∃ p ∈ entry.2, rxMatch p (normalize_header h).toList = true) ∧
        ∀ e ∈ pre, ∀ p ∈ e.2,
          rxMatch p (normalize_header h).toList = false) ∧
    (∀ h1 h2 canon : String,
      match_header h1 = some canon → match_header h2 = some canon →
      build_rename [h1, h2] =
        if h1.length < h2.length ∨ h2 = "ID.1" then [(h2, canon)]
        else [(h1, canon)]) := by
  refine ⟨?_, ?_, ?_⟩
  · intro h
    simp only [match_header, Option.map_eq_none', List.find?_eq_none,
      List.any_eq_true, not_exists, not_and]
    constructor
    · intro hall e he p hp
      have := hall e he p hp
      cases hb : rxMatch p (normalize_header h).toList
      · rfl
      · exact absurd hb this
    · intro hall e he p hp hm
      rw [hall e he p hp] at hm
      exact Bool.false_ne_true hm
  · intro h c hm
    simp only [match_header, Option.map_eq_some'] at hm
    obtain ⟨entry, hfind, hc⟩ := hm
    rw [List.find?_eq_some] at hfind
    obtain ⟨hpe, pre, post, hsplit, hprev⟩ := hfind
    refine ⟨pre, entry, post, hsplit, hc, ?_, ?_⟩
    · simpa [List.any_eq_true] using hpe
    · intro e he p hp
      have hne := hprev e he
      simp only [Bool.not_eq_eq_eq_not, Bool.not_true, List.any_eq_false]
        at hne
      cases hb : rxMatch p (normalize_header h).toList
      · rfl
      · exact absurd hb (hne p hp)
  · intro h1 h2 canon hm1 hm2
    have step1 : renameStep [] h1 = [(h1, canon)] := by
      simp [renameStep, hm1]
    have step2 : renameStep [(h1, canon)] h2 =
        if h1.length < h2.length ∨ h2 = "ID.1" then [(h2, canon)]
        else [(h1, canon)] := by
      simp [renameStep, hm2]
    show renameStep (renameStep [] h1) h2 = _
    rw [step1, step2]

theorem C7_header_matching_witness :
    (match_header "ID" = some "reference") ∧
    (match_header "ID.1" = some "reference") ∧
    build_rename ["ID", "ID.1"] =
      (if ("ID" : String).length < ("ID.1" : String).length ∨
          ("ID.1" : String) = "ID.1" then
        [("ID.1", "reference")]
      else [("ID", "reference")]) :=
  ⟨by decide, by decide,
   C7_header_matching.2.2 "ID" "ID.1" "reference" (by decide) (by decide)⟩

/-- A spreadsheet row of src/excel_to_products.py after header
renaming, restricted to the columns the grouping logic touches; each
cell is `Option String` with `Option.none` for a NaN/blank cell. -/
structure XRow where
  reference : Option String
  product_name : Option String
  category_name : Option String
  size : Option String
deriving DecidableEq, Repr

/-- One pass of `df[col] = df[col].ffill()` over the three
carries-down columns (src/excel_to_products.py, lines 126-128): a NaN
cell inherits the nearest preceding non-NaN value. -/
def ffillRows : List XRow → Option String → Option String → Option String →
    List XRow
  | [], _, _, _ => []
  | r :: rest, pr, pn, pc =>
    let ref := match r.reference with
      | some v => some v
      | Option.none => pr
    let pname := match r.product_name with
      | some v => some v
      | Option.none => pn
    let cname := match r.category_name with
      | some v => some v
      | Option.none => pc
    ⟨ref, pname, cname, r.size⟩ :: ffillRows rest ref pname cname

def forward_fill (rows : List XRow) : List XRow :=
  ffillRows rows Option.none Option.none Option.none

/-- `df = df[df["size"].astype(str).str.strip().ne("")]`
(src/excel_to_products.py, lines 131-132).  `astype(str)` renders a NaN
cell as the string `"nan"`, which is non-empty after stripping. -/
def keepSized (rows : List XRow) : List XRow :=
  rows.filter (fun r => !(pyStrip (pyStrCell r.size).toList).isEmpty)

/-- `(r.get("size") or "").strip()` in `build_variation`
(src/excel_to_products.py, line 81): on a NaN cell the float is truthy,
so `.strip()` is called on a float and raises `AttributeError` —
modelled by the `error` result.  (The other variation fields are built
by the value parsers modelled elsewhere in this file and are not part
of this claim.) -/
def variationSize? : Option String → Except String String
  | Option.none => .error "AttributeError"
  | some s => .ok (String.mk (pyStrip s.toList))

/-- A parent product as assembled by the grouping loop: name and
category seeded from the group's first row, variations (by their size
label) in row order. -/
structure XProduct where
  name : String
  categoryName : String
  variations : List String
deriving DecidableEq, Repr

/-- Append a variation to the product stored under `ref`. -/
def addVariation (products : List (String × XProduct)) (ref : String)
    (v : String) : List (String × XProduct) :=
  match products with
  | [] => []
  | (k, p) :: rest =>
    if k = ref then (k, { p with variations := p.variations ++ [v] }) :: rest
    else (k, p) :: addVariation rest ref v

/-- The grouping loop of `main` (src/excel_to_products.py, lines
145-174): rows with a blank reference (after `str(x or "").strip()`;
a NaN reference stringifies to `"nan"` and is kept) are skipped, a
first-seen reference creates the parent product seeded from that row,
and every row appends its variation; an exception in `build_variation`
aborts the whole run (the loop has no try/except). -/
def groupRows : List XRow → List (String × XProduct) →
    Except String (List (String × XProduct))
  | [], products => .ok products
  | r :: rest, products =>
    let ref := String.mk (pyStrip (pyStrCell r.reference).toList)
    if ref = "" then groupRows rest products
    else
      let cat_name := String.mk (pyStrip (pyStrCell r.category_name).toList)
      let prod_name := String.mk (pyStrip (pyStrCell r.product_name).toList)
      let products' :=
        if products.any (fun e => e.1 == ref) then products
        else products ++ [(ref, ⟨prod_name, cat_name, []⟩)]
      match variationSize? r.size with
      | .ok v => groupRows rest (addVariation products' ref v)
      | .error e => .error e

/-- Forward-fill, size filter and grouping of `main`
(src/excel_to_products.py, lines 125-174), in source order. -/
def buildProducts (rows : List XRow) : Except String (List (String × XProduct)) :=
  groupRows (keepSized (forward_fill rows)) []

/-- C6: the claim's positive example holds — the three rows group into
products "1.1" (variations S, M — the blank reference forward-fills)
and "1.2" (variation L) — but the claim's "rows lacking a size value
are dropped" is broken in the code: `astype(str)` turns a missing size
into the non-empty string "nan", the filter keeps the row (contradicting
the adjacent comment "must have a size"), and `build_variation` then
raises `AttributeError` on the float NaN, aborting the run. -/
theorem C6_row_grouping :
    buildProducts
        [⟨some "1.1", some "Syringe", some "Disposables", some "S"⟩,
         ⟨Option.none, Option.none, Option.none, some "M"⟩,
         ⟨some "1.2", some "Needle", some "Disposables", some "L"⟩] =
      .ok [("1.1", ⟨"Syringe", "Disposables", ["S", "M"]⟩),
           ("1.2", ⟨"Needle", "Disposables", ["L"]⟩)] ∧
    keepSized (forward_fill
        [⟨some "1.1", some "Syringe", some "Disposables", Option.none⟩]) =
      [⟨some "1.1", some "Syringe", some "Disposables", Option.none⟩] ∧
    buildProducts
        [⟨some "1.1", some "Syringe", some "Disposables", Option.none⟩] =
      .error "AttributeError" := by
  refine ⟨rfl, by decide, rfl⟩
